import Mathlib

/-!
# Verification of the StackSpot agent template's core components

This file shallowly embeds the components of the repository that the
specification's claims are about:

* `src/utils/url_utils.py` (`parse_url`, `clean_url_parts`, `build_url`) together
  with the parts of CPython's `urllib.parse` that these functions call
  (`urlparse`, `urlunparse`, `urlencode`, `quote_plus`);
* `src/utils/api_client.py` (`StackSpotAPIClient.__init__`,
  `_create_auth_header`, `get_oauth_token`, `post`);
* `src/agents/chat.py` (the answer extraction in `AgentChat.ask`);
* `src/models/chat_session.py` (`Message`, `ChatSession`);
* `src/models/llm.py` and `src/models/prompt.py` (`LLMConfig`, `PromptConfig`).

Strings are modelled as `List Char`; mutable objects are modelled by explicit
state passing; the HTTP transport is modelled by an explicit outcome value and
each client operation additionally returns the list of requests it issued.
-/

namespace UrlModel

/-- Characters allowed in a URL scheme: `scheme_chars` in `urllib.parse`
(ASCII letters, digits, `+`, `-`, `.`). -/
def schemeChar (c : Char) : Bool :=
  c.isAlpha || c.isDigit || c = '+' || c = '-' || c = '.'

/-- The bytes `urllib.parse.urlsplit` removes everywhere
(`_UNSAFE_URL_BYTES_TO_REMOVE`): tab, CR, LF. -/
def unsafeByte (c : Char) : Bool :=
  c = '\t' || c = '\r' || c = '\n'

/-- Strips leading C0-control and space characters, as `urlsplit` does with
`_WHATWG_C0_CONTROL_OR_SPACE` (codepoints up to and including 0x20). -/
def lstripC0 : List Char → List Char
  | [] => []
  | c :: cs => if c.toNat ≤ 32 then lstripC0 cs else c :: cs

/-- Index of the first occurrence of a character, `str.find` style. -/
def firstIdxOf (c : Char) : List Char → Option Nat
  | [] => none
  | a :: l => if a = c then some 0 else (firstIdxOf c l).map (· + 1)

/-- Index of the first character satisfying a predicate. -/
def firstIdxWhere (p : Char → Bool) : List Char → Option Nat
  | [] => none
  | a :: l => if p a then some 0 else (firstIdxWhere p l).map (· + 1)

/-- Index of the last occurrence of a character, `str.rfind` style (meaningful
only when the character occurs). -/
def lastIdxOf (c : Char) (l : List Char) : Nat :=
  l.length - 1 - ((firstIdxOf c l.reverse).getD 0)

/-- `str.find(c, start)`: first occurrence of `c` at or after `start`. -/
def firstIdxOfFrom (c : Char) (l : List Char) (start : Nat) : Option Nat :=
  (firstIdxOf c (l.drop start)).map (· + start)

/-- Splits a string at the first occurrence of `c`, dropping the separator;
when `c` does not occur the second component is empty.  This is Python's
`if c in url: url, rest = url.split(c, 1)` idiom used by `urlsplit`. -/
def splitOnFirst (c : Char) (l : List Char) : List Char × List Char :=
  match firstIdxOf c l with
  | none => (l, [])
  | some i => (l.take i, l.drop (i + 1))

/-- ASCII lowercasing of a single character, as `str.lower` acts on the ASCII
scheme characters that `urlsplit` lowercases. -/
def asciiLower (c : Char) : Char :=
  match c with
  | 'A' => 'a' | 'B' => 'b' | 'C' => 'c' | 'D' => 'd' | 'E' => 'e' | 'F' => 'f'
  | 'G' => 'g' | 'H' => 'h' | 'I' => 'i' | 'J' => 'j' | 'K' => 'k' | 'L' => 'l'
  | 'M' => 'm' | 'N' => 'n' | 'O' => 'o' | 'P' => 'p' | 'Q' => 'q' | 'R' => 'r'
  | 'S' => 's' | 'T' => 't' | 'U' => 'u' | 'V' => 'v' | 'W' => 'w' | 'X' => 'x'
  | 'Y' => 'y' | 'Z' => 'z'
  | other => other

/-- Whether the first character exists and is an ASCII letter
(`url[0].isascii() and url[0].isalpha()`). -/
def headIsAlpha (l : List Char) : Bool :=
  match l.head? with
  | some c => c.isAlpha
  | none => false

/-- The scheme-splitting step of `urlsplit`: if the text up to the first `:`
is a non-empty run of scheme characters starting with an ASCII letter, it is
the (lowercased) scheme and the remainder follows the colon; otherwise there
is no scheme. -/
def splitScheme (l : List Char) : List Char × List Char :=
  match firstIdxOf ':' l with
  | none => ([], l)
  | some i =>
    if 0 < i ∧ headIsAlpha l ∧ (l.take i).all schemeChar then
      ((l.take i).map asciiLower, l.drop (i + 1))
    else ([], l)

/-- `urllib.parse._splitnetloc` applied to the text after `//`: the netloc
runs up to the first `/`, `?` or `#`. -/
def splitNetloc (l : List Char) : List Char × List Char :=
  let i := (firstIdxWhere (fun c => c = '/' || c = '?' || c = '#') l).getD l.length
  (l.take i, l.drop i)

/-- Result of `urllib.parse.urlsplit`. -/
structure SplitResult where
  scheme : List Char
  netloc : List Char
  path : List Char
  query : List Char
  fragment : List Char
deriving Repr, DecidableEq

/-- The sanitisation `urlsplit` performs before splitting: strip leading
C0-control/space characters, then remove tab/CR/LF everywhere. -/
def urlsplitPrep (url : List Char) : List Char :=
  (lstripC0 url).filter (fun c => !unsafeByte c)

/-- Models `urllib.parse.urlsplit` (with `allow_fragments=True`).  Bracketed
hosts are not modelled: CPython validates `[...]` netlocs with the `ipaddress`
module and raises for malformed ones; this model maps every URL whose netloc
contains a bracket to `none`, and no theorem below instantiates such a URL. -/
def urlsplit (url : List Char) : Option SplitResult :=
  let u1 := urlsplitPrep url
  let su := splitScheme u1
  let nu := if su.2.take 2 = ['/', '/'] then splitNetloc (su.2.drop 2) else ([], su.2)
  if nu.1.contains '[' || nu.1.contains ']' then none
  else
    let ff := splitOnFirst '#' nu.2
    let pq := splitOnFirst '?' ff.1
    some ⟨su.1, nu.1, pq.1, pq.2, ff.2⟩

/-- `urllib.parse._splitparams`: split params off the path at the first `;`
after the last `/` (or the first `;` overall when there is no `/`). -/
def splitParams (p : List Char) : List Char × List Char :=
  if p.contains '/' then
    match firstIdxOfFrom ';' p (lastIdxOf '/' p) with
    | none => (p, [])
    | some i => (p.take i, p.drop (i + 1))
  else
    match firstIdxOf ';' p with
    | none => (p, [])
    | some i => (p.take i, p.drop (i + 1))

/-- Result of `urllib.parse.urlparse`, as used by `url_utils.parse_url`. -/
structure ParseResult where
  scheme : List Char
  netloc : List Char
  path : List Char
  params : List Char
  query : List Char
  fragment : List Char
deriving Repr, DecidableEq

/-- Models `urllib.parse.urlparse`: `urlsplit` plus the params split, which is
performed only when the path contains a `;`. -/
def urlparse (url : List Char) : Option ParseResult :=
  match urlsplit url with
  | none => none
  | some r =>
    let pp := if r.path.contains ';' then splitParams r.path else (r.path, [])
    some ⟨r.scheme, r.netloc, pp.1, pp.2, r.query, r.fragment⟩

/-- Models `urllib.parse.urlunsplit`. -/
def urlunsplit (scheme netloc url query fragment : List Char) : List Char :=
  let url1 := if netloc ≠ [] ∨ url.take 2 = ['/', '/'] then
      ['/', '/'] ++ netloc ++ (if url ≠ [] ∧ url.head? ≠ some '/' then '/' :: url else url)
    else url
  let url2 := if scheme ≠ [] then scheme ++ ':' :: url1 else url1
  let url3 := if query ≠ [] then url2 ++ '?' :: query else url2
  if fragment ≠ [] then url3 ++ '#' :: fragment else url3

/-- Models `urllib.parse.urlunparse`: re-attach params (when non-empty) to the
path, then `urlunsplit`. -/
def urlunparse (r : ParseResult) : List Char :=
  urlunsplit r.scheme r.netloc
    (if r.params ≠ [] then r.path ++ ';' :: r.params else r.path) r.query r.fragment

/-- `"x".strip("/")`: drop leading and trailing slashes. -/
def stripSlashes (l : List Char) : List Char :=
  ((l.dropWhile (· = '/')).reverse.dropWhile (· = '/')).reverse

/-- `sep.join(parts)`: exactly one separator between consecutive parts. -/
def joinSep (sep : Char) : List (List Char) → List Char
  | [] => []
  | [p] => p
  | p :: q :: ps => p ++ sep :: joinSep sep (q :: ps)

/-- UTF-8 encoding of a Unicode codepoint, as bytes (represented as `Nat`). -/
def utf8EncodeNat (n : Nat) : List Nat :=
  if n < 0x80 then [n]
  else if n < 0x800 then [0xC0 + n / 0x40, 0x80 + n % 0x40]
  else if n < 0x10000 then
    [0xE0 + n / 0x1000, 0x80 + (n / 0x40) % 0x40, 0x80 + n % 0x40]
  else
    [0xF0 + n / 0x40000, 0x80 + (n / 0x1000) % 0x40, 0x80 + (n / 0x40) % 0x40,
      0x80 + n % 0x40]

/-- UTF-8 bytes of a string. -/
def utf8Bytes (l : List Char) : List Nat :=
  (l.map (fun c => utf8EncodeNat c.toNat)).flatten

/-- The bytes `urllib.parse.quote` never encodes (`_ALWAYS_SAFE`): ASCII
letters, digits, `_`, `.`, `-`, `~`. -/
def alwaysSafeByte (b : Nat) : Bool :=
  (65 ≤ b && b ≤ 90) || (97 ≤ b && b ≤ 122) || (48 ≤ b && b ≤ 57) ||
    b = 95 || b = 46 || b = 45 || b = 126

/-- Upper-case hexadecimal digit for a value below 16. -/
def hexDigit (n : Nat) : Char :=
  if n < 10 then Char.ofNat (48 + n) else Char.ofNat (55 + n)

/-- `urllib.parse.quote` restricted to string input: percent-encode every
UTF-8 byte outside the always-safe set and the extra `safe` bytes. -/
def quoteChars (safe : List Nat) (l : List Char) : List Char :=
  ((utf8Bytes l).map (fun b =>
    if alwaysSafeByte b || safe.contains b then [Char.ofNat b]
    else ['%', hexDigit (b / 16), hexDigit (b % 16)])).flatten

/-- Models `urllib.parse.quote_plus` with default arguments: like `quote`,
but spaces become `+`. -/
def quote_plus (l : List Char) : List Char :=
  if l.contains ' ' then
    (quoteChars [32] l).map (fun c => if c = ' ' then '+' else c)
  else quoteChars [] l

/-- Models `urllib.parse.urlencode` on a mapping of strings (Python dicts
preserve insertion order, so the mapping is an ordered association list). -/
def urlencode (q : List (List Char × List Char)) : List Char :=
  joinSep '&' (q.map (fun kv => quote_plus kv.1 ++ '=' :: quote_plus kv.2))

end UrlModel

namespace UrlUtils

open UrlModel

/-- `url_utils.parse_url`: a direct wrapper around `urllib.parse.urlparse`. -/
def parse_url (url : List Char) : Option ParseResult :=
  urlparse url

/-- `url_utils.clean_url_parts`: keep the truthy (non-empty) parts and strip
leading/trailing slashes from each. -/
def clean_url_parts (parts : List (List Char)) : List (List Char) :=
  (parts.filter (fun p => !p.isEmpty)).map stripSlashes

/-- `url_utils.build_url`.  The two nested source conditionals
(`if parsed.path:` then `if base_path:`) are rendered as the single
conjunction guarding the insertion of the stripped base path; the query slot
is `urlencode(query)` when the query mapping is truthy and empty otherwise. -/
def build_url (base_url : List Char) (parts : List (List Char))
    (query : Option (List (List Char × List Char))) : Option (List Char) :=
  match parse_url base_url with
  | none => none
  | some parsed =>
    let clean_parts :=
      if parsed.path ≠ [] ∧ stripSlashes parsed.path ≠ [] then
        stripSlashes parsed.path :: clean_url_parts parts
      else clean_url_parts parts
    let path := joinSep '/' clean_parts
    let query_string :=
      match query with
      | none => ([] : List Char)
      | some q => if q = [] then [] else urlencode q
    some (urlunparse ⟨parsed.scheme, parsed.netloc, '/' :: path,
      parsed.params, query_string, parsed.fragment⟩)

end UrlUtils

namespace ApiClient

open UrlModel UrlUtils

/-- Exceptions that `api_client.py` can raise: Python `ValueError`s raised by
the module itself, `requests.HTTPError` from `raise_for_status` (carrying the
status code), and transport-level `requests` exceptions. -/
inductive SSError where
  | valueError (msg : String)
  | httpError (status : Nat)
  | networkError
deriving Repr, DecidableEq

/-- A JSON value as far as the client inspects response bodies (only
primitive `access_token` values are ever examined). -/
inductive JsonVal where
  | jstr (s : String)
  | jnum (n : Int)
  | jbool (b : Bool)
  | jnull
deriving Repr, DecidableEq

/-- Python truthiness of a JSON value (`if not access_token`). -/
def jfalsy : JsonVal → Bool
  | .jstr s => s.isEmpty
  | .jnum n => n = 0
  | .jbool b => !b
  | .jnull => true

/-- An HTTP response as the client observes it: a status code and a JSON
body (`none` when `response.json()` would fail to decode). -/
structure HttpResponse where
  status : Nat
  jsonBody : Option (List (String × JsonVal))
deriving Repr, DecidableEq

/-- Outcome of one HTTP exchange: a transport-level failure (DNS/TLS/timeout
exception inside `requests.post`) or a response. -/
inductive TransportResult where
  | failure
  | success (r : HttpResponse)
deriving Repr, DecidableEq

/-- `requests.Response.raise_for_status`: raises `HTTPError` exactly for
status codes in `[400, 600)`. -/
def raise_for_status (status : Nat) : Except SSError Unit :=
  if 400 ≤ status ∧ status < 600 then .error (.httpError status) else .ok ()

/-- `StackSpotAPIClient` instance state. -/
structure StackSpotAPIClient where
  base_url : String
  auth_url : String
  realm : String
deriving Repr, DecidableEq

/-- Python's `x or default` for an optional string: `None` and the empty
string are both falsy and fall back to the default. -/
def pyOr (x : Option String) (dflt : String) : String :=
  match x with
  | some s => if s = "" then dflt else s
  | none => dflt

/-- `StackSpotAPIClient.__init__`: default the URLs, then raise
`ValueError("Account realm is required for authentication")` when the realm
is `None` or empty. -/
def StackSpotAPIClient.init (base_url auth_url realm : Option String) :
    Except SSError StackSpotAPIClient :=
  let b := pyOr base_url "https://genai-inference-app.stackspot.com/v1"
  let a := pyOr auth_url "https://idm.stackspot.com"
  match realm with
  | none => .error (.valueError "Account realm is required for authentication")
  | some r =>
    if r = "" then .error (.valueError "Account realm is required for authentication")
    else .ok ⟨b, a, r⟩

/-- The form-encoded token request `get_oauth_token` sends. -/
structure TokenRequest where
  url : String
  headers : List (String × String)
  formData : List (String × String)
deriving Repr, DecidableEq

/-- The token request built from the arguments of `get_oauth_token`. -/
def tokenRequest (url client_id client_secret : String) : TokenRequest :=
  ⟨url,
    [("Content-Type", "application/x-www-form-urlencoded")],
    [("client_id", client_id), ("grant_type", "client_credentials"),
      ("client_secret", client_secret)]⟩

/-- The outcome of the single HTTP exchange inside `get_oauth_token`:
`raise_for_status`, then the `access_token` field of the JSON body, raising
`ValueError("No access token in response")` when it is absent or falsy.
Every exception is logged and re-raised unchanged. -/
def oauthOutcome (transport : TransportResult) : Except SSError JsonVal :=
  match transport with
  | .failure => .error .networkError
  | .success resp =>
    match raise_for_status resp.status with
    | .error e => .error e
    | .ok _ =>
      match resp.jsonBody with
      | none => .error (.valueError "response body is not JSON")
      | some body =>
        match body.lookup "access_token" with
        | none => .error (.valueError "No access token in response")
        | some v =>
          if jfalsy v then .error (.valueError "No access token in response")
          else .ok v

/-- `StackSpotAPIClient.get_oauth_token`: exactly one POST of the credentials
as form data (the request list is the second component; the single
`requests.post` call is issued whatever the outcome, and there is no retry
loop), with the outcome of `oauthOutcome`. -/
def get_oauth_token (url client_id client_secret : String)
    (transport : TransportResult) : Except SSError JsonVal × List TokenRequest :=
  (oauthOutcome transport, [tokenRequest url client_id client_secret])

/-- The `StackSpotAgent.__init__` flow relevant to authentication: construct
the `StackSpotAPIClient` (which validates the realm), then call
`get_oauth_token` against the auth URL.  No request is issued when
construction fails. -/
def acquireToken (base_url auth_url realm : Option String)
    (client_id client_secret : String) (transport : TransportResult) :
    Except SSError JsonVal × List TokenRequest :=
  match StackSpotAPIClient.init base_url auth_url realm with
  | .error e => (.error e, [])
  | .ok client => get_oauth_token client.auth_url client_id client_secret transport

/-- `StackSpotAPIClient._create_auth_header`. -/
def create_auth_header (access_token : String) : List (String × String) :=
  [("Authorization", "Bearer " ++ access_token),
    ("Content-Type", "application/json")]

/-- A Python value appearing in a request payload, as far as `post` treats it
(`str(v)` coercion in the multipart branch). -/
inductive PyVal where
  | pstr (s : String)
  | pint (n : Int)
  | pbool (b : Bool)
  | pnone
deriving Repr, DecidableEq

/-- Python `str()` of a payload value. -/
def pyStr : PyVal → String
  | .pstr s => s
  | .pint n => toString n
  | .pbool true => "True"
  | .pbool false => "False"
  | .pnone => "None"

/-- Body of an outgoing POST: `requests.post(..., json=data)` or
`requests.post(..., data=form_data, files=files)`. -/
inductive RequestBody where
  | jsonBody (data : List (String × PyVal))
  | multipartBody (form : List (String × String)) (files : List (String × String))
deriving Repr, DecidableEq

/-- An outgoing POST request as `StackSpotAPIClient.post` assembles it. -/
structure PostRequest where
  url : List Char
  headers : List (String × String)
  body : RequestBody
deriving Repr, DecidableEq

/-- Python truthiness of the `files` argument (`if files:`): `None` and the
empty dict are both falsy. -/
def filesTruthy : Option (List (String × String)) → Bool
  | none => false
  | some fs => !fs.isEmpty

/-- The request-assembly part of `StackSpotAPIClient.post`: resolve the URL
via `build_url`, create the auth headers, and either pop `Content-Type` and
send stringified form fields plus files (multipart) or send the payload as
JSON.  Returns `none` when `build_url` is outside the model's domain. -/
def buildPostRequest (c : StackSpotAPIClient) (endpoint : String)
    (data : List (String × PyVal)) (access_token : String)
    (files : Option (List (String × String))) : Option PostRequest :=
  match build_url c.base_url.toList [endpoint.toList] none with
  | none => none
  | some url =>
    let headers := create_auth_header access_token
    if filesTruthy files then
      some ⟨url, headers.eraseP (fun kv => kv.1 = "Content-Type"),
        .multipartBody (data.map (fun kv => (kv.1, pyStr kv.2))) (files.getD [])⟩
    else
      some ⟨url, headers, .jsonBody data⟩

end ApiClient

namespace ChatModel

/-- `chat_session.Message`: role, content and a creation timestamp (the
`datetime.now()` instant, abstracted to a number). -/
structure Message where
  role : String
  content : String
  timestamp : Nat
deriving Repr, DecidableEq

/-- `chat_session.ChatSession`: conversation identifier, ordered message
list, metadata mapping. -/
structure ChatSession where
  conversation_id : String
  messages : List Message
  metadata : List (String × String)
deriving Repr, DecidableEq

/-- `ChatSession.add_message`: append a new `Message` whose timestamp is the
current instant (passed explicitly here). -/
def ChatSession.add_message (s : ChatSession) (role content : String)
    (now : Nat) : ChatSession :=
  { s with messages := s.messages ++ [⟨role, content, now⟩] }

/-- `ChatSession.get_context`: the ordered `{role, content}` pairs, timestamps
dropped. -/
def ChatSession.get_context (s : ChatSession) : List (String × String) :=
  s.messages.map (fun m => (m.role, m.content))

/-- `ChatSession.clear`: `self.messages.clear()`; all other fields are left
untouched. -/
def ChatSession.clear (s : ChatSession) : ChatSession :=
  { s with messages := [] }

/-- A sequence of `add_message` calls, each with the timestamp at which it
happens: `(role, content, now)`. -/
def applyAdds (s : ChatSession) (calls : List (String × String × Nat)) :
    ChatSession :=
  calls.foldl (fun acc c => acc.add_message c.1 c.2.1 c.2.2) s

/-- The answer extraction in `AgentChat.ask`:
`answer = response.get("message", ""); return answer`. -/
def extractAnswer (response : List (String × String)) : String :=
  (response.lookup "message").getD ""

end ChatModel

namespace ConfigModel

/-- A value in a serialized configuration mapping: the dataclass fields are
strings and numeric literals.  The numeric literals are carried exactly (no
arithmetic is ever performed on them), so they are represented as rationals. -/
inductive ConfigVal where
  | cstr (s : String)
  | cnum (q : ℚ)
deriving Repr, DecidableEq

/-- `llm.LLMConfig` with its declared field defaults. -/
structure LLMConfig where
  provider : String
  model : String
  temperature : ℚ := 7/10
  top_p : ℚ := 1
  frequency_penalty : ℚ := 1/10
  presence_penalty : ℚ := 0
deriving Repr, DecidableEq

/-- `LLMConfig.to_dict`. -/
def LLMConfig.to_dict (c : LLMConfig) : List (String × ConfigVal) :=
  [("provider", .cstr c.provider), ("model", .cstr c.model),
    ("temperature", .cnum c.temperature), ("top_p", .cnum c.top_p),
    ("frequency_penalty", .cnum c.frequency_penalty),
    ("presence_penalty", .cnum c.presence_penalty)]

/-- `prompt.PromptConfig`. -/
structure PromptConfig where
  content : String
deriving Repr, DecidableEq

/-- `PromptConfig.to_dict`. -/
def PromptConfig.to_dict (c : PromptConfig) : List (String × String) :=
  [("content", c.content)]

end ConfigModel

/-! ## Helper lemmas about the URL model -/

namespace UrlModel

theorem urlunsplit_cons_path (s n : List Char) (hn : n ≠ []) (J : List Char) :
    urlunsplit s n ('/' :: J) [] [] = urlunsplit s n [] [] [] ++ '/' :: J := by
  unfold urlunsplit
  simp only [ne_eq, hn, not_false_eq_true, true_or, if_true, List.head?_cons,
    Option.some.injEq, List.cons_ne_self, false_and, and_false, if_false,
    not_true_eq_false, List.take_nil, reduceCtorEq, or_true]
  by_cases hs : s = [] <;>
    simp [hs, List.append_assoc]

theorem mem_of_mem_lstripC0 {x : Char} : ∀ {l : List Char}, x ∈ lstripC0 l → x ∈ l := by
  intro l
  induction l with
  | nil => exact id
  | cons c cs ih =>
    intro h
    simp only [lstripC0] at h
    split at h
    · exact List.mem_cons_of_mem _ (ih h)
    · exact h

theorem mem_of_mem_urlsplitPrep {x : Char} {l : List Char}
    (h : x ∈ urlsplitPrep l) : x ∈ l :=
  mem_of_mem_lstripC0 (List.mem_of_mem_filter h)

theorem mem_of_mem_splitScheme_snd {x : Char} {l : List Char}
    (h : x ∈ (splitScheme l).2) : x ∈ l := by
  unfold splitScheme at h
  split at h
  · exact h
  · split at h
    · exact List.mem_of_mem_drop h
    · exact h

theorem mem_of_mem_splitOnFirst_fst {c x : Char} {l : List Char}
    (h : x ∈ (splitOnFirst c l).1) : x ∈ l := by
  unfold splitOnFirst at h
  split at h
  · exact h
  · exact List.mem_of_mem_take h

theorem mem_of_mem_netlocStep {x : Char} {u : List Char}
    (h : x ∈ (if u.take 2 = ['/', '/'] then splitNetloc (u.drop 2) else ([], u)).2) :
    x ∈ u := by
  split at h
  · unfold splitNetloc at h
    exact List.mem_of_mem_drop (List.mem_of_mem_drop h)
  · exact h

theorem firstIdxOf_eq_none {c : Char} : ∀ {l : List Char}, c ∉ l → firstIdxOf c l = none := by
  intro l
  induction l with
  | nil => intro _; rfl
  | cons a as ih =>
    intro h
    have ha : ¬a = c := fun e => h (e ▸ List.mem_cons_self a as)
    rw [show firstIdxOf c (a :: as)
        = if a = c then some 0 else (firstIdxOf c as).map (· + 1) from rfl]
    rw [if_neg ha, ih (fun hm => h (List.mem_cons_of_mem _ hm))]
    rfl

theorem splitOnFirst_not_mem {c : Char} {l : List Char} (h : c ∉ l) :
    splitOnFirst c l = (l, []) := by
  unfold splitOnFirst
  rw [firstIdxOf_eq_none h]

theorem mem_of_mem_splitNetloc_snd {x : Char} {l : List Char}
    (h : x ∈ (splitNetloc l).2) : x ∈ l := by
  unfold splitNetloc at h
  exact List.mem_of_mem_drop h

theorem query_piece_empty {u : List Char} (h : '?' ∉ u) :
    (splitOnFirst '?' (splitOnFirst '#' u).1).2 = [] := by
  have h2 : '?' ∉ (splitOnFirst '#' u).1 := fun hm =>
    h (mem_of_mem_splitOnFirst_fst hm)
  rw [splitOnFirst_not_mem h2]

theorem urlsplit_query_empty {l : List Char} (h : '?' ∉ l) (r : SplitResult)
    (hr : urlsplit l = some r) : r.query = [] := by
  have hsub : '?' ∉ (splitScheme (urlsplitPrep l)).2 := fun hm =>
    h (mem_of_mem_urlsplitPrep (mem_of_mem_splitScheme_snd hm))
  unfold urlsplit at hr
  dsimp only at hr
  split at hr
  · split at hr
    · exact absurd hr (by simp)
    · obtain rfl : _ = r := Option.some.inj hr
      exact query_piece_empty (fun hm =>
        hsub (List.mem_of_mem_drop (mem_of_mem_splitNetloc_snd hm)))
  · split at hr
    · exact absurd hr (by simp)
    · obtain rfl : _ = r := Option.some.inj hr
      exact query_piece_empty hsub

theorem urlparse_query_empty {l : List Char} (h : '?' ∉ l) (r : ParseResult)
    (hr : urlparse l = some r) : r.query = [] := by
  unfold urlparse at hr
  cases hs : urlsplit l with
  | none => rw [hs] at hr; exact absurd hr (by simp)
  | some r0 =>
    rw [hs] at hr
    dsimp only at hr
    obtain rfl : _ = r := Option.some.inj hr
    exact urlsplit_query_empty h r0 hs

theorem mem_urlunsplit {x : Char} (s n p f : List Char)
    (h : x ∈ urlunsplit s n p [] f) :
    x ∈ s ∨ x ∈ n ∨ x ∈ p ∨ x ∈ f ∨ x = '/' ∨ x = ':' ∨ x = '#' := by
  have hurl1 : ∀ y : Char,
      y ∈ (if n ≠ [] ∨ p.take 2 = ['/', '/'] then
          ['/', '/'] ++ n ++ (if p ≠ [] ∧ p.head? ≠ some '/' then '/' :: p else p)
        else p) →
        y ∈ n ∨ y ∈ p ∨ y = '/' := by
    intro y hy
    split at hy
    · rcases List.mem_append.mp hy with h1 | h2
      · rcases List.mem_append.mp h1 with h3 | h4
        · rcases List.mem_cons.mp h3 with h5 | h6
          · exact Or.inr (Or.inr h5)
          · rcases List.mem_cons.mp h6 with h7 | h8
            · exact Or.inr (Or.inr h7)
            · exact absurd h8 (List.not_mem_nil y)
        · exact Or.inl h4
      · split at h2
        · rcases List.mem_cons.mp h2 with h5 | h6
          · exact Or.inr (Or.inr h5)
          · exact Or.inr (Or.inl h6)
        · exact Or.inr (Or.inl h2)
    · exact Or.inr (Or.inl hy)
  unfold urlunsplit at h
  dsimp only at h
  have hm3 : x ∈ (if ([] : List Char) ≠ [] then
      (if s ≠ [] then s ++ ':' :: (if n ≠ [] ∨ p.take 2 = ['/', '/'] then
          ['/', '/'] ++ n ++ (if p ≠ [] ∧ p.head? ≠ some '/' then '/' :: p else p)
        else p) else (if n ≠ [] ∨ p.take 2 = ['/', '/'] then
          ['/', '/'] ++ n ++ (if p ≠ [] ∧ p.head? ≠ some '/' then '/' :: p else p)
        else p)) ++ '?' :: []
    else (if s ≠ [] then s ++ ':' :: (if n ≠ [] ∨ p.take 2 = ['/', '/'] then
          ['/', '/'] ++ n ++ (if p ≠ [] ∧ p.head? ≠ some '/' then '/' :: p else p)
        else p) else (if n ≠ [] ∨ p.take 2 = ['/', '/'] then
          ['/', '/'] ++ n ++ (if p ≠ [] ∧ p.head? ≠ some '/' then '/' :: p else p)
        else p))) ∨ x ∈ f ∨ x = '#' := by
    split at h
    · rcases List.mem_append.mp h with h1 | h2
      · exact Or.inl h1
      · rcases List.mem_cons.mp h2 with h3 | h4
        · exact Or.inr (Or.inr h3)
        · exact Or.inr (Or.inl h4)
    · exact Or.inl h
  have hm2 : x ∈ (if s ≠ [] then s ++ ':' :: (if n ≠ [] ∨ p.take 2 = ['/', '/'] then
          ['/', '/'] ++ n ++ (if p ≠ [] ∧ p.head? ≠ some '/' then '/' :: p else p)
        else p) else (if n ≠ [] ∨ p.take 2 = ['/', '/'] then
          ['/', '/'] ++ n ++ (if p ≠ [] ∧ p.head? ≠ some '/' then '/' :: p else p)
        else p)) ∨ x ∈ f ∨ x = '#' := by
    rcases hm3 with hm | hm | hm
    · rw [if_neg (fun hc => hc rfl)] at hm
      exact Or.inl hm
    · exact Or.inr (Or.inl hm)
    · exact Or.inr (Or.inr hm)
  have hm1 : x ∈ s ∨ x = ':' ∨
      x ∈ (if n ≠ [] ∨ p.take 2 = ['/', '/'] then
          ['/', '/'] ++ n ++ (if p ≠ [] ∧ p.head? ≠ some '/' then '/' :: p else p)
        else p) ∨ x ∈ f ∨ x = '#' := by
    rcases hm2 with hm | hm | hm
    · split at hm
      · rcases List.mem_append.mp hm with h1 | h2
        · exact Or.inl h1
        · rcases List.mem_cons.mp h2 with h3 | h4
          · exact Or.inr (Or.inl h3)
          · exact Or.inr (Or.inr (Or.inl h4))
      · exact Or.inr (Or.inr (Or.inl hm))
    · exact Or.inr (Or.inr (Or.inr (Or.inl hm)))
    · exact Or.inr (Or.inr (Or.inr (Or.inr hm)))
  rcases hm1 with h1 | h1 | h1 | h1 | h1
  · exact Or.inl h1
  · exact Or.inr (Or.inr (Or.inr (Or.inr (Or.inr (Or.inl h1)))))
  · rcases hurl1 x h1 with h2 | h2 | h2
    · exact Or.inr (Or.inl h2)
    · exact Or.inr (Or.inr (Or.inl h2))
    · exact Or.inr (Or.inr (Or.inr (Or.inr (Or.inl h2))))
  · exact Or.inr (Or.inr (Or.inr (Or.inl h1)))
  · exact Or.inr (Or.inr (Or.inr (Or.inr (Or.inr (Or.inr h1)))))

theorem mem_joinSep {x sep : Char} :
    ∀ {parts : List (List Char)}, x ∈ joinSep sep parts →
      x = sep ∨ ∃ p ∈ parts, x ∈ p := by
  intro parts
  induction parts with
  | nil => intro h; exact absurd h (List.not_mem_nil x)
  | cons p ps ih =>
    cases ps with
    | nil => intro h; exact Or.inr ⟨p, List.mem_cons_self p [], h⟩
    | cons b bs =>
      intro h
      rw [show joinSep sep (p :: b :: bs) = p ++ sep :: joinSep sep (b :: bs)
          from rfl] at h
      rcases List.mem_append.mp h with h1 | h2
      · exact Or.inr ⟨p, List.mem_cons_self p _, h1⟩
      · rcases List.mem_cons.mp h2 with h3 | h4
        · exact Or.inl h3
        · rcases ih h4 with h5 | ⟨u, hu1, hu2⟩
          · exact Or.inl h5
          · exact Or.inr ⟨u, List.mem_cons_of_mem _ hu1, hu2⟩

theorem mem_of_mem_dropWhileP {x : Char} {p : Char → Bool} :
    ∀ {l : List Char}, x ∈ l.dropWhile p → x ∈ l := by
  intro l
  induction l with
  | nil => exact id
  | cons a as ih =>
    intro h
    rw [List.dropWhile_cons] at h
    split at h
    · exact List.mem_cons_of_mem _ (ih h)
    · exact h

theorem mem_of_mem_stripSlashes {x : Char} {l : List Char}
    (h : x ∈ stripSlashes l) : x ∈ l := by
  unfold stripSlashes at h
  rw [List.mem_reverse] at h
  exact mem_of_mem_dropWhileP (List.mem_reverse.mp (mem_of_mem_dropWhileP h))

end UrlModel

namespace UrlUtils

open UrlModel

theorem mem_clean_url_parts {part : List Char} {ss : List (List Char)}
    (h : part ∈ clean_url_parts ss) : ∃ seg ∈ ss, part = stripSlashes seg := by
  unfold clean_url_parts at h
  rcases List.mem_map.mp h with ⟨seg, hseg, rfl⟩
  exact ⟨seg, List.mem_of_mem_filter hseg, rfl⟩

end UrlUtils

/-! ## Claim theorems -/

section Claims

open UrlModel UrlUtils ApiClient ChatModel ConfigModel

/-- **C1** (corrected).  As stated the claim is false: `build_url` rebuilds
the URL from the parsed components of the base and always puts the empty
query slot (when no query argument is given) in place of the base's own query
string, so a base with an empty parsed path but a non-empty query (or
fragment) does not satisfy `build_url(B, "a", "b") = B + "/a/b"`; moreover a
non-empty segment consisting only of slashes strips to the empty string and
produces a double slash in the joined path.  Amended: for every base `B`
whose parsed path, params, query and fragment are empty, whose netloc is
non-empty, and which is exactly reconstructed by unparsing its parse,
`build_url B ss none` is `B` followed by `/` and the cleaned segments
(empty segments dropped, each remaining segment stripped of leading/trailing
slashes) joined with exactly one `/` between consecutive cleaned segments. -/
theorem build_url_on_pathless_base (B : List Char) (ss : List (List Char))
    (pr : ParseResult) (hp : parse_url B = some pr) (hpath : pr.path = [])
    (hpar : pr.params = []) (hq : pr.query = []) (hf : pr.fragment = [])
    (hn : pr.netloc ≠ []) (hrt : urlunparse pr = B) :
    build_url B ss none = some (B ++ '/' :: joinSep '/' (clean_url_parts ss)) := by
  obtain ⟨s, n, p, par, q, f⟩ := pr
  simp only at hpath hpar hq hf hn hrt
  subst hpath hpar hq hf
  unfold build_url
  rw [hp]
  simp only [ne_eq, not_true_eq_false, false_and, if_false, reduceIte]
  rw [show urlunparse ⟨s, n, '/' :: joinSep '/' (clean_url_parts ss), [], [], []⟩
      = urlunsplit s n ('/' :: joinSep '/' (clean_url_parts ss)) [] [] from rfl]
  rw [urlunsplit_cons_path s n hn]
  rw [show urlunsplit s n [] [] [] = urlunparse ⟨s, n, [], [], [], []⟩ from rfl, hrt]

/-- **C1** counterexample: the base `"https://host?x=1"` has an empty parsed
path, yet `build_url` discards its query, so the result is not
`B + "/a/b"`. -/
theorem build_url_pathless_base_cex :
    build_url "https://host?x=1".toList ["a".toList, "b".toList] none
        = some "https://host/a/b".toList ∧
      "https://host/a/b".toList ≠ ("https://host?x=1".toList ++ "/a/b".toList) := by
  constructor
  · rfl
  · decide

/-- **C1** witness: the amended theorem applied at `B = "https://host"`,
segments `["a", "b"]`. -/
theorem build_url_on_pathless_base_witness :
    build_url "https://host".toList ["a".toList, "b".toList] none
      = some ("https://host".toList ++ '/' ::
          joinSep '/' (clean_url_parts ["a".toList, "b".toList])) :=
  build_url_on_pathless_base "https://host".toList ["a".toList, "b".toList]
    ⟨"https".toList, "host".toList, [], [], [], []⟩
    (by decide) rfl rfl rfl rfl (by decide) (by decide)

/-- **C2** (corrected).  As stated the claim is false: when the first call
passes a query mapping, the built URL carries a query string, and a second
application of `build_url` (no query argument) rebuilds the URL with an empty
query slot, dropping it.  (A segment stripping to the empty string likewise
breaks idempotence via path collapse.)  Amended: `build_url` is idempotent on
every URL `u` whose parsed query is empty, whose parsed path is `/` followed
by its own slash-stripped form, and which is exactly reconstructed by
unparsing its parse — in particular on the output of any `build_url` call
made without a query argument on a well-formed base whose segments do not
strip to the empty string. -/
theorem build_url_idem_normalized (u : List Char) (pr : ParseResult)
    (hp : parse_url u = some pr) (hq : pr.query = [])
    (hpath : pr.path = '/' :: stripSlashes pr.path)
    (hrt : urlunparse pr = u) :
    build_url u [] none = some u := by
  obtain ⟨s, n, p, par, q, f⟩ := pr
  simp only at hq hpath hrt
  subst hq
  unfold build_url
  rw [hp]
  dsimp only
  by_cases hb : stripSlashes p = []
  · have hp1 : p = ['/'] := by rw [hpath, hb]
    rw [if_neg (by simp [hb])]
    rw [show joinSep '/' (clean_url_parts []) = [] from rfl]
    rw [← hrt, hp1]
  · rw [if_pos ⟨by rw [hpath]; exact List.cons_ne_nil _ _, hb⟩]
    rw [show joinSep '/' (stripSlashes p :: clean_url_parts []) = stripSlashes p from rfl]
    rw [← hrt, ← hpath]

/-- **C2** counterexample: `build_url("https://host", "a", query={"x": "1"})`
is `"https://host/a?x=1"`, and applying `build_url` to that string with no
extra segments and no query argument yields `"https://host/a"`, not the same
string. -/
theorem build_url_idem_query_cex :
    build_url "https://host".toList ["a".toList] (some [("x".toList, "1".toList)])
        = some "https://host/a?x=1".toList ∧
      build_url "https://host/a?x=1".toList [] none
        ≠ some "https://host/a?x=1".toList := by
  constructor
  · rfl
  · decide

/-- **C2** witness: the amended theorem applied at `u = "https://host/a/b"`
(the output of `build_url("https://host", "a", "b")`). -/
theorem build_url_idem_normalized_witness :
    build_url "https://host/a/b".toList [] none = some "https://host/a/b".toList :=
  build_url_idem_normalized "https://host/a/b".toList
    ⟨"https".toList, "host".toList, "/a/b".toList, [], [], []⟩
    (by decide) rfl (by decide) (by decide)

/-- **C3** (confirmed).  When the realm is unset (`None` or the empty
string), the authentication flow fails during `StackSpotAPIClient.__init__`
with the configuration error the code realizes as
`ValueError("Account realm is required for authentication")`, before
`get_oauth_token` can run: the list of issued HTTP requests is empty. -/
theorem acquireToken_missing_realm (base auth realm : Option String)
    (client_id client_secret : String) (t : TransportResult)
    (h : realm = none ∨ realm = some "") :
    acquireToken base auth realm client_id client_secret t
      = (.error (.valueError "Account realm is required for authentication"), []) := by
  rcases h with h | h <;> subst h <;> rfl

/-- **C3** witness: the theorem applied with the realm absent. -/
theorem acquireToken_missing_realm_witness :
    acquireToken none none none "client" "secret" .failure
      = (.error (.valueError "Account realm is required for authentication"), []) :=
  acquireToken_missing_realm none none none "client" "secret" .failure (Or.inl rfl)

/-- **C4** (corrected).  As stated the claim is false: the code raises only
for statuses in `[400, 600)` (`raise_for_status`), so a non-2xx status such
as 304 with a token in the body returns the token instead of raising.  The
code also raises when `access_token` is present but falsy (e.g. the empty
string), and when the body is not JSON.  Amended contract, proved over every
transport outcome: exactly one request is issued (never a retry); a network
failure raises; a 4xx/5xx status raises an `HTTPError` with that status; a
non-raising status with a non-JSON body raises; an absent or falsy
`access_token` raises `ValueError("No access token in response")`; a present
truthy `access_token` is returned. -/
theorem get_oauth_token_contract (url client_id client_secret : String)
    (t : TransportResult) :
    (get_oauth_token url client_id client_secret t).2
        = [tokenRequest url client_id client_secret] ∧
      (t = .failure →
        (get_oauth_token url client_id client_secret t).1 = .error .networkError) ∧
      (∀ resp, t = .success resp → 400 ≤ resp.status → resp.status < 600 →
        (get_oauth_token url client_id client_secret t).1
          = .error (.httpError resp.status)) ∧
      (∀ resp, t = .success resp → ¬(400 ≤ resp.status ∧ resp.status < 600) →
        resp.jsonBody = none →
        (get_oauth_token url client_id client_secret t).1
          = .error (.valueError "response body is not JSON")) ∧
      (∀ resp body, t = .success resp → ¬(400 ≤ resp.status ∧ resp.status < 600) →
        resp.jsonBody = some body → body.lookup "access_token" = none →
        (get_oauth_token url client_id client_secret t).1
          = .error (.valueError "No access token in response")) ∧
      (∀ resp body v, t = .success resp → ¬(400 ≤ resp.status ∧ resp.status < 600) →
        resp.jsonBody = some body → body.lookup "access_token" = some v →
        jfalsy v = true →
        (get_oauth_token url client_id client_secret t).1
          = .error (.valueError "No access token in response")) ∧
      (∀ resp body v, t = .success resp → ¬(400 ≤ resp.status ∧ resp.status < 600) →
        resp.jsonBody = some body → body.lookup "access_token" = some v →
        jfalsy v = false →
        (get_oauth_token url client_id client_secret t).1 = .ok v) := by
  refine ⟨rfl, ?_, ?_, ?_, ?_, ?_, ?_⟩
  · intro ht; subst ht; rfl
  · intro resp ht h1 h2; subst ht
    simp [get_oauth_token, oauthOutcome, raise_for_status, h1, h2]
  · intro resp ht hns hb; subst ht
    simp [get_oauth_token, oauthOutcome, raise_for_status, hns, hb]
  · intro resp body ht hns hb hl; subst ht
    simp [get_oauth_token, oauthOutcome, raise_for_status, hns, hb, hl]
  · intro resp body v ht hns hb hl hv; subst ht
    simp [get_oauth_token, oauthOutcome, raise_for_status, hns, hb, hl, hv]
  · intro resp body v ht hns hb hl hv; subst ht
    simp [get_oauth_token, oauthOutcome, raise_for_status, hns, hb, hl, hv]

/-- **C4** counterexample: a 304 response (not 2xx) whose body contains an
`access_token` makes `get_oauth_token` return the token instead of raising:
`raise_for_status` only raises for 4xx/5xx. -/
theorem get_oauth_token_non2xx_cex :
    (get_oauth_token "https://idm.stackspot.com" "client" "secret"
        (.success ⟨304, some [("access_token", .jstr "T")]⟩)).1
      = .ok (.jstr "T") ∧ ¬(200 ≤ 304 ∧ 304 < 300) := by
  constructor
  · rfl
  · decide

/-- **C4** witness: the contract applied at a 200 response carrying a
non-empty token. -/
theorem get_oauth_token_contract_witness :
    (get_oauth_token "https://idm.stackspot.com" "client" "secret"
          (.success ⟨200, some [("access_token", .jstr "T")]⟩)).1
        = .ok (.jstr "T") ∧
      (get_oauth_token "https://idm.stackspot.com" "client" "secret"
          (.success ⟨200, some [("access_token", .jstr "T")]⟩)).2
        = [tokenRequest "https://idm.stackspot.com" "client" "secret"] := by
  have h := get_oauth_token_contract "https://idm.stackspot.com" "client" "secret"
    (.success ⟨200, some [("access_token", .jstr "T")]⟩)
  exact ⟨h.2.2.2.2.2.2 ⟨200, some [("access_token", .jstr "T")]⟩
    [("access_token", .jstr "T")] (.jstr "T") rfl (by decide) rfl rfl rfl, h.1⟩

/-- **C5** (corrected).  As stated the claim is false at one boundary: an
empty `files` mapping is "supplied" but falsy in Python, so `if files:`
takes the JSON branch.  Amended, proved for every assembled request: the
`Authorization` header is always `Bearer {token}`; when `files` is falsy
(absent or empty) the body is the JSON payload and `Content-Type` is
`application/json`; when a non-empty `files` mapping is supplied the body is
multipart with every payload field coerced via `str()` and the
`Content-Type` header is removed. -/
theorem post_request_contract (c : StackSpotAPIClient) (endpoint : String)
    (data : List (String × PyVal)) (token : String)
    (files : Option (List (String × String))) (req : PostRequest)
    (h : buildPostRequest c endpoint data token files = some req) :
    req.headers.lookup "Authorization" = some ("Bearer " ++ token) ∧
      (filesTruthy files = false →
        req.body = .jsonBody data ∧
          req.headers.lookup "Content-Type" = some "application/json") ∧
      (∀ fs, files = some fs → fs ≠ [] →
        req.body = .multipartBody (data.map (fun kv => (kv.1, pyStr kv.2))) fs ∧
          req.headers.lookup "Content-Type" = none) := by
  unfold buildPostRequest at h
  cases hb : build_url c.base_url.toList [endpoint.toList] none with
  | none => rw [hb] at h; exact absurd h (by simp)
  | some url =>
    rw [hb] at h
    dsimp only at h
    by_cases hf : filesTruthy files
    · rw [if_pos hf] at h
      obtain rfl : _ = req := Option.some.inj h
      refine ⟨rfl, ?_, ?_⟩
      · intro hff; rw [hf] at hff; exact absurd hff (by simp)
      · intro fs hfs hne
        subst hfs
        exact ⟨rfl, rfl⟩
    · rw [if_neg hf] at h
      obtain rfl : _ = req := Option.some.inj h
      refine ⟨rfl, fun _ => ⟨rfl, rfl⟩, ?_⟩
      intro fs hfs hne
      subst hfs
      simp [filesTruthy, List.isEmpty_iff] at hf
      exact absurd hf hne

/-- **C5** counterexample: with `files = {}` (supplied but empty), the
request is sent as JSON with `Content-Type: application/json`, not as
multipart. -/
theorem post_empty_files_cex :
    buildPostRequest ⟨"https://h", "https://auth", "r"⟩ "chat" [] "T" (some [])
      = some ⟨"https://h/chat".toList,
          [("Authorization", "Bearer T"), ("Content-Type", "application/json")],
          .jsonBody []⟩ := by
  decide

/-- **C5** witness: the contract applied at a non-empty `files` mapping. -/
theorem post_request_contract_witness :
    ((⟨"https://h/chat".toList, [("Authorization", "Bearer T")],
          .multipartBody [("user_prompt", "hi")] [("file_0", "F")]⟩ :
        PostRequest).headers.lookup "Authorization" = some ("Bearer " ++ "T")) ∧
      ((⟨"https://h/chat".toList, [("Authorization", "Bearer T")],
          .multipartBody [("user_prompt", "hi")] [("file_0", "F")]⟩ :
        PostRequest).body
          = .multipartBody [("user_prompt", "hi")] [("file_0", "F")] ∧
        (⟨"https://h/chat".toList, [("Authorization", "Bearer T")],
            .multipartBody [("user_prompt", "hi")] [("file_0", "F")]⟩ :
          PostRequest).headers.lookup "Content-Type" = none) := by
  have h := post_request_contract ⟨"https://h", "https://auth", "r"⟩ "chat"
    [("user_prompt", .pstr "hi")] "T" (some [("file_0", "F")])
    ⟨"https://h/chat".toList, [("Authorization", "Bearer T")],
      .multipartBody [("user_prompt", "hi")] [("file_0", "F")]⟩ (by decide)
  exact ⟨h.1, h.2.2 [("file_0", "F")] rfl (by decide)⟩

/-- **C6** (code bug).  The specification requires a `ResponseShapeError`
when the expected answer key is absent from an otherwise-successful
execute/chat response and explicitly forbids silently returning empty text,
but `AgentChat.ask` runs `answer = response.get("message", "")`: at the
failing input `{"response": "Hello!"}` (no `"message"` key) the code
silently returns the empty string and raises nothing. -/
theorem extractAnswer_silent_default :
    extractAnswer [("response", "Hello!")] = "" := rfl

/-- **C7** (corrected).  As stated the claim is false for sessions whose
history is not empty: `get_context` returns the pre-existing pairs as well,
so its length is not the number of `add_message` calls.  Amended: after any
sequence of `add_message` calls (no intervening `clear`), `get_context` is
the previous context extended, in call order, by exactly one `{role,
content}` pair per call, holding that call's arguments — so it has exactly N
pairs when the session's history started empty. -/
theorem get_context_after_adds :
    ∀ (calls : List (String × String × Nat)) (s : ChatSession),
      (applyAdds s calls).get_context
        = s.get_context ++ calls.map (fun c => (c.1, c.2.1)) := by
  intro calls
  induction calls with
  | nil => intro s; simp [applyAdds]
  | cons c cs ih =>
    intro s
    rw [show applyAdds s (c :: cs) = applyAdds (s.add_message c.1 c.2.1 c.2.2) cs
        from rfl]
    rw [ih]
    simp [ChatSession.get_context, ChatSession.add_message]

/-- **C7** counterexample: a session already holding one message, with N = 0
`add_message` calls: `get_context` does not return exactly 0 pairs. -/
theorem get_context_nonfresh_cex :
    (applyAdds ⟨"id", [⟨"user", "hi", 0⟩], []⟩ []).get_context ≠ [] := by
  decide

/-- **C8** (confirmed).  `clear` empties the message sequence — the
following `get_context` is empty — and leaves the conversation identifier
and the metadata mapping unchanged. -/
theorem clear_empties_and_preserves (s : ChatSession) :
    (s.clear).get_context = [] ∧
      (s.clear).conversation_id = s.conversation_id ∧
      (s.clear).metadata = s.metadata :=
  ⟨rfl, rfl, rfl⟩

/-- **C9** (confirmed).  An `LLMConfig` built with only provider and model
serializes to exactly the declared fields with the declared defaults
(temperature 0.7, top_p 1.0, frequency_penalty 0.1, presence_penalty 0.0),
and `PromptConfig` serializes to exactly `{content}`. -/
theorem config_to_dict_defaults (provider model content : String) :
    ({ provider := provider, model := model } : LLMConfig).to_dict
        = [("provider", .cstr provider), ("model", .cstr model),
            ("temperature", .cnum (7/10)), ("top_p", .cnum 1),
            ("frequency_penalty", .cnum (1/10)), ("presence_penalty", .cnum 0)] ∧
      (PromptConfig.mk content).to_dict = [("content", content)] :=
  ⟨rfl, rfl⟩

/-- **C10** (corrected).  As stated the claim is false: a path segment
containing `?` re-introduces a query component into the returned URL even
when no query argument is passed.  Amended: (1) provided no `?` occurs in
the segments or in the non-query parsed components of the base, the URL
returned by `build_url` without a query argument has an empty query
component when reparsed; and (2) the base URL's own query string is always
discarded — the result of `build_url` does not depend on it: two bases whose
parses agree on everything except the query produce identical results. -/
theorem build_url_discards_base_query :
    (∀ (B : List Char) (ss : List (List Char)) (pr : ParseResult),
        parse_url B = some pr →
        '?' ∉ pr.scheme → '?' ∉ pr.netloc → '?' ∉ pr.path → '?' ∉ pr.params →
        '?' ∉ pr.fragment → (∀ seg ∈ ss, '?' ∉ seg) →
        ∀ res, build_url B ss none = some res →
        ∀ r, urlparse res = some r → r.query = []) ∧
      (∀ (B B' : List Char) (ss : List (List Char))
          (q : Option (List (List Char × List Char))) (pr pr' : ParseResult),
        parse_url B = some pr → parse_url B' = some pr' →
        pr.scheme = pr'.scheme → pr.netloc = pr'.netloc → pr.path = pr'.path →
        pr.params = pr'.params → pr.fragment = pr'.fragment →
        build_url B ss q = build_url B' ss q) := by
  constructor
  · intro B ss pr hp hqs hqn hqp hqpar hqf hseg res hres r hr
    unfold build_url at hres
    rw [hp] at hres
    dsimp only at hres
    obtain rfl : _ = res := Option.some.inj hres
    refine urlparse_query_empty ?_ r hr
    intro hm
    unfold urlunparse at hm
    dsimp only at hm
    have hpath : '?' ∉ ('/' :: joinSep '/'
        (if pr.path ≠ [] ∧ stripSlashes pr.path ≠ [] then
          stripSlashes pr.path :: clean_url_parts ss
        else clean_url_parts ss)) := by
      intro hm2
      rcases List.mem_cons.mp hm2 with h2 | h2
      · exact absurd h2 (by decide)
      · rcases mem_joinSep h2 with h3 | ⟨part, hp1, hp2⟩
        · exact absurd h3 (by decide)
        · have hnot : '?' ∉ part := by
            by_cases hcond : pr.path ≠ [] ∧ stripSlashes pr.path ≠ []
            · rw [if_pos hcond] at hp1
              rcases List.mem_cons.mp hp1 with h4 | h4
              · subst h4
                exact fun hm3 => hqp (mem_of_mem_stripSlashes hm3)
              · rcases mem_clean_url_parts h4 with ⟨seg, hs1, rfl⟩
                exact fun hm3 => hseg seg hs1 (mem_of_mem_stripSlashes hm3)
            · rw [if_neg hcond] at hp1
              rcases mem_clean_url_parts hp1 with ⟨seg, hs1, rfl⟩
              exact fun hm3 => hseg seg hs1 (mem_of_mem_stripSlashes hm3)
          exact hnot hp2
    rcases mem_urlunsplit _ _ _ _ hm with h1 | h1 | h1 | h1 | h1 | h1 | h1
    · exact hqs h1
    · exact hqn h1
    · split at h1
      · rcases List.mem_append.mp h1 with h2 | h2
        · exact hpath h2
        · rcases List.mem_cons.mp h2 with h3 | h3
          · exact absurd h3 (by decide)
          · exact hqpar h3
      · exact hpath h1
    · exact hqf h1
    · exact absurd h1 (by decide)
    · exact absurd h1 (by decide)
    · exact absurd h1 (by decide)
  · intro B B' ss q pr pr' hp hp' h1 h2 h3 h4 h5
    unfold build_url
    rw [hp, hp']
    dsimp only
    rw [h1, h2, h3, h4, h5]

/-- **C10** counterexample: the base `"https://host?x=1"` contains a query
and `build_url` is called without a query argument, yet the returned URL
`"https://host/a?b"` has the non-empty query component `"b"` on reparsing,
because the segment `"a?b"` smuggles a `?` into the path. -/
theorem build_url_query_component_cex :
    build_url "https://host?x=1".toList ["a?b".toList] none
        = some "https://host/a?b".toList ∧
      (urlparse "https://host/a?b".toList).map ParseResult.query
        = some "b".toList ∧
      "b".toList ≠ [] := by
  refine ⟨rfl, rfl, ?_⟩
  decide

/-- **C10** witness: part (1) applied at base `"https://host?x=1"` and
segment `"a"` (reparsing the result `"https://host/a"`), and part (2)
applied to two bases differing only in their query strings. -/
theorem build_url_discards_base_query_witness :
    ((⟨"https".toList, "host".toList, "/a".toList, [], [], []⟩ :
        ParseResult).query = []) ∧
      build_url "https://host?x=1".toList ["a".toList] none
        = build_url "https://host?y=2".toList ["a".toList] none := by
  constructor
  · exact build_url_discards_base_query.1 "https://host?x=1".toList ["a".toList]
      ⟨"https".toList, "host".toList, [], [], "x=1".toList, []⟩ (by decide)
      (by decide) (by decide) (by decide) (by decide) (by decide) (by decide)
      "https://host/a".toList (by decide)
      ⟨"https".toList, "host".toList, "/a".toList, [], [], []⟩ (by decide)
  · exact build_url_discards_base_query.2 "https://host?x=1".toList
      "https://host?y=2".toList ["a".toList] none
      ⟨"https".toList, "host".toList, [], [], "x=1".toList, []⟩
      ⟨"https".toList, "host".toList, [], [], "y=2".toList, []⟩
      (by decide) (by decide) rfl rfl rfl rfl rfl

end Claims
